import Mathlib

/-
Verification of the Automatic Layered Layout and Interactive Diagram Engine
(src/components/CadViewer.tsx of the solar repository).

The embedding translates the layout pipeline into Lean:
  - numbers are modelled as exact rationals (JS numbers without rounding error);
  - JS Maps are modelled as association lists with get / has / set operations
    (insertion order preserved, set replaces in place, get finds the first
    binding -- exactly the observable Map behaviour the code relies on);
  - the two genuinely recursive procedures, calcHeight and assignPosition,
    recurse through a children map that can contain cycles, so they are
    modelled with an explicit fuel parameter returning Option: a `none`
    result means the recursion did not complete within the given depth.
-/

namespace Solar

/-- Layout constants from CadViewer.tsx lines 16-21. -/
def MIN_CANVAS_HEIGHT : ℚ := 1000

def BASE_NODE_HEIGHT : ℚ := 100

def LEVEL_WIDTH : ℚ := 180

def GRID_SNAP : ℚ := 20

/-- The closed component-type enum from types.ts. -/
inductive ComponentType where
  | PV_ARRAY
  | DC_COMBINER
  | DC_BREAKER
  | DC_SPD
  | INVERTER
  | AC_BREAKER
  | AC_SPD
  | AC_DISTRIBUTION
  | METER
  | GRID
  | LOAD
deriving DecidableEq, Repr

/-- LEVEL_MAP (CadViewer.tsx lines 23-35): horizontal rank per type. -/
def levelMap : ComponentType → ℚ
  | .PV_ARRAY => 0
  | .DC_COMBINER => 1
  | .DC_SPD => 6/5
  | .DC_BREAKER => 3/2
  | .INVERTER => 2
  | .AC_BREAKER => 5/2
  | .AC_SPD => 14/5
  | .AC_DISTRIBUTION => 3
  | .LOAD => 7/2
  | .METER => 4
  | .GRID => 5

/-- SolarComponent from types.ts: x and y are optional (absent means the
layout engine decides). -/
structure SolarComponent where
  id : String
  type : ComponentType
  label : String
  specs : List String
  x : Option ℚ := none
  y : Option ℚ := none
deriving DecidableEq, Repr

/-- Connection from types.ts; `from` is a reserved word in Lean so the two
endpoint fields are named fromId and toId; `type` ('DC' | 'AC' | 'GROUND')
is named kind. -/
structure Connection where
  fromId : String
  toId : String
  label : String
  kind : String
deriving DecidableEq, Repr

/-- getLevelX (lines 37-41): x is a pure function of the type rank.
The source's `LEVEL_MAP[type] ?? 2` default is unreachable because every
enum value has an entry in LEVEL_MAP. -/
def getLevelX (t : ComponentType) : ℚ := 100 + levelMap t * LEVEL_WIDTH

/-- getNodeHeight (lines 43-47): base height plus 15 per spec line. -/
def getNodeHeight (c : SolarComponent) : ℚ :=
  BASE_NODE_HEIGHT + (c.specs.length : ℚ) * 15

/-- Association-list model of a string-keyed JS Map. -/
abbrev SMap (β : Type) := List (String × β)

/-- Map.get: first binding for the key, if any. -/
def aget? {β : Type} (m : SMap β) (k : String) : Option β :=
  (m.find? (fun p => p.1 == k)).map (fun p => p.2)

/-- Map.has. -/
def ahas {β : Type} (m : SMap β) (k : String) : Bool :=
  (m.find? (fun p => p.1 == k)).isSome

/-- Map.set: replace the existing binding in place, else append. -/
def aset {β : Type} (m : SMap β) (k : String) (v : β) : SMap β :=
  match m with
  | [] => [(k, v)]
  | (k1, v1) :: rest =>
    if k1 == k then (k, v) :: rest else (k1, v1) :: aset rest k v

/-- Stable insertion used to model JS Array.prototype.sort (which is
stable): x is inserted after every element y with le y x. -/
def insertSorted {α : Type} (le : α → α → Bool) (x : α) : List α → List α
  | [] => [x]
  | y :: ys => if le y x then y :: insertSorted le x ys else x :: y :: ys

/-- Stable sort: fold the list left to right, inserting each element at the
end of its block of comparator-equal elements. For the consistent total
comparators the code uses, this produces exactly the stable-sorted result
mandated for Array.prototype.sort. -/
def stableSort {α : Type} (le : α → α → Bool) (l : List α) : List α :=
  l.foldl (fun acc x => insertSorted le x acc) []

/-- Comparator of children.sort() (line 125): default JS sort, i.e.
lexicographic string order. -/
def strLe (a b : String) : Bool := decide (a ≤ b)

/-- Comparator of roots.sort (line 84): descending LEVEL_MAP rank. -/
def rootsLe (a b : SolarComponent) : Bool :=
  decide (levelMap b.type ≤ levelMap a.type)

/-- Rank of the component carrying the given id, 0 if absent: models
`LEVEL_MAP[components.find(c => c.id === id)?.type || ''] || 0`
(lines 69-70).  A missing component yields key '' hence 0; the `|| 0`
on a present component only re-maps the already-0 PV_ARRAY rank to 0. -/
def levelOfId (components : List SolarComponent) (id : String) : ℚ :=
  match components.find? (fun c => c.id == id) with
  | some c => levelMap c.type
  | none => 0

/-- isLoad (line 71). -/
def isLoad (components : List SolarComponent) (id : String) : Bool :=
  match components.find? (fun c => c.id == id) with
  | some c => c.type == ComponentType.LOAD
  | none => false

/-- Direction disambiguation of one connection (lines 65-75): parent
defaults to conn.to and child to conn.from; they swap exactly when the
parent rank is strictly below the child rank and the child is not a LOAD.
Returns (parent, child). -/
def orientConn (components : List SolarComponent) (conn : Connection) :
    String × String :=
  let parent := conn.toId
  let child := conn.fromId
  let pLevel := levelOfId components parent
  let cLevel := levelOfId components child
  if pLevel < cLevel && !(isLoad components child) then (child, parent)
  else (parent, child)

/-- The forest produced by the topology normalizer. -/
structure Forest where
  childrenMap : SMap (List String)
  parentMap : SMap String
deriving DecidableEq, Repr

/-- Line 63: every component id starts with an empty children list. -/
def initForest (components : List SolarComponent) : Forest :=
  { childrenMap := components.foldl (fun m c => aset m c.id []) []
    parentMap := [] }

/-- Lines 65-81: process one connection. If the oriented parent has a
children entry, the child is pushed onto it and the child's parent binding
is set (overwriting any previous parent). -/
def addConn (components : List SolarComponent) (f : Forest)
    (conn : Connection) : Forest :=
  let pc := orientConn components conn
  if ahas f.childrenMap pc.1 then
    { childrenMap :=
        aset f.childrenMap pc.1 ((aget? f.childrenMap pc.1).getD [] ++ [pc.2])
      parentMap := aset f.parentMap pc.2 pc.1 }
  else f

/-- The whole topology normalizer (lines 60-81). -/
def normalizeForest (components : List SolarComponent)
    (connections : List Connection) : Forest :=
  connections.foldl (addConn components) (initForest components)

/-- Lines 83-84: roots are the components without a parent binding, sorted
by descending rank (stably). -/
def layoutRoots (components : List SolarComponent) (f : Forest) :
    List SolarComponent :=
  stableSort rootsLe (components.filter (fun c => !(ahas f.parentMap c.id)))

/-- calcHeight (lines 88-104), fuelled.  The worklist form processes a list
of node ids left to right, threading the memo map and summing the heights
(this is exactly the children.reduce of line 100).  A node already in the
memo map returns its cached value; otherwise its own height is max-combined
with the total height of its children.  The memo entry is written only
after the children finish, exactly as in the source, so a cycle reachable
from the worklist never completes: the fuel runs out and `none` results. -/
def calcHeightGo (components : List SolarComponent)
    (cm : SMap (List String)) (fuel : Nat) (memo : SMap ℚ)
    (l : List String) : Option (ℚ × SMap ℚ) :=
  if fuel = 0 then none
  else match l with
  | [] => some (0, memo)
  | nodeId :: rest =>
    let head : Option (ℚ × SMap ℚ) :=
      match aget? memo nodeId with
      | some h => some (h, memo)
      | none =>
        let myHeight :=
          match components.find? (fun c => c.id == nodeId) with
          | some n => getNodeHeight n
          | none => BASE_NODE_HEIGHT
        let children := (aget? cm nodeId).getD []
        if children.isEmpty then some (myHeight, aset memo nodeId myHeight)
        else
          match calcHeightGo components cm (fuel - 1) memo children with
          | none => none
          | some p =>
            some (max myHeight p.1, aset p.2 nodeId (max myHeight p.1))
    match head with
    | none => none
    | some p =>
      match calcHeightGo components cm (fuel - 1) p.2 rest with
      | none => none
      | some q => some (p.1 + q.1, q.2)
  termination_by fuel
  decreasing_by all_goals omega

/-- Line 106: roots.forEach(r => calcHeight(r.id)), threading the memo. -/
def calcRoots (components : List SolarComponent) (cm : SMap (List String))
    (fuel : Nat) : List SolarComponent → SMap ℚ → Option (SMap ℚ)
  | [], memo => some memo
  | r :: rest, memo =>
    match calcHeightGo components cm fuel memo [r.id] with
    | none => none
    | some p => calcRoots components cm fuel rest p.2

/-- Lines 126-132: compute each child's band center from the running
startY cursor (the heights map is read-only during assignment, so the
centers can be laid out before recursing). -/
def childTasks (heights : SMap ℚ) : List String → ℚ → List (String × ℚ)
  | [], _ => []
  | childId :: rest, startY =>
    let childHeight := (aget? heights childId).getD 0
    (childId, startY + childHeight / 2) ::
      childTasks heights rest (startY + childHeight)

/-- assignPosition (lines 111-134), fuelled, worklist form over
(nodeId, centerY) tasks.  An id with no matching component is skipped
(line 113).  Otherwise x falls back to the rank-derived column and y to the
band center; the position is recorded and the children (sorted, line 125)
are laid out inside the node's band. -/
def assignGo (components : List SolarComponent) (cm : SMap (List String))
    (heights : SMap ℚ) (fuel : Nat) (positions : SMap (ℚ × ℚ))
    (tasks : List (String × ℚ)) : Option (SMap (ℚ × ℚ)) :=
  if fuel = 0 then none
  else match tasks with
  | [] => some positions
  | (nodeId, centerY) :: rest =>
    match components.find? (fun c => c.id == nodeId) with
    | none => assignGo components cm heights (fuel - 1) positions rest
    | some node =>
      let x := node.x.getD (getLevelX node.type)
      let y := node.y.getD centerY
      let positions1 := aset positions nodeId (x, y)
      let children := (aget? cm nodeId).getD []
      if children.isEmpty then
        assignGo components cm heights (fuel - 1) positions1 rest
      else
        let sorted := stableSort strLe children
        let startY := centerY - (aget? heights nodeId).getD 0 / 2
        match assignGo components cm heights (fuel - 1) positions1
            (childTasks heights sorted startY) with
        | none => none
        | some positions2 =>
          assignGo components cm heights (fuel - 1) positions2 rest
  termination_by fuel
  decreasing_by all_goals omega

/-- Lines 136-141: stack the roots from the y = 100 cursor with 40 units of
inter-root padding; returns (final cursor, positions map). -/
def assignRoots (components : List SolarComponent)
    (cm : SMap (List String)) (heights : SMap ℚ) (fuel : Nat) :
    List SolarComponent → ℚ → SMap (ℚ × ℚ) → Option (ℚ × SMap (ℚ × ℚ))
  | [], currentRootY, positions => some (currentRootY, positions)
  | root :: rest, currentRootY, positions =>
    let h := (aget? heights root.id).getD 0
    let centerY := currentRootY + h / 2
    match assignGo components cm heights fuel positions
        [(root.id, centerY)] with
    | none => none
    | some positions1 =>
      assignRoots components cm heights fuel rest
        (currentRootY + h + 40) positions1

/-- The full-recompute pipeline up to the positions map (lines 60-143):
normalize, find roots, compute subtree heights, assign positions.
Returns (currentRootY after all roots, positions). -/
def layoutPositions (components : List SolarComponent)
    (connections : List Connection) (fuel : Nat) :
    Option (ℚ × SMap (ℚ × ℚ)) :=
  let f := normalizeForest components connections
  let roots := layoutRoots components f
  match calcRoots components f.childrenMap fuel roots [] with
  | none => none
  | some heights =>
    assignRoots components f.childrenMap heights fuel roots 100 []

/-- Lines 52-53: running maximum of the (all-present) y coordinates.
A JS comparison against undefined is false, matching the 0 default. -/
def maxYOf (components : List SolarComponent) : ℚ :=
  components.foldl (fun m c => if c.y.getD 0 > m then c.y.getD 0 else m) 0

/-- JS Math.round: round half toward positive infinity. -/
def jsRound (q : ℚ) : ℤ := ⌊q + 1/2⌋

/-- Lines 148-149: snap to the 20-unit grid. -/
def snap (q : ℚ) : ℚ := ((jsRound (q / GRID_SNAP) : ℤ) : ℚ) * GRID_SNAP

/-- LayoutResult. -/
structure LayoutResult where
  layoutedComponents : List SolarComponent
  totalHeight : ℚ
deriving DecidableEq, Repr

/-- calculateSmartLayout (lines 49-154), fuelled.  If every component
already has both coordinates the input list is returned as is with only the
total height recomputed (lines 50-58).  Otherwise the full pipeline runs
and every component is re-annotated with its snapped position, components
absent from the positions map falling back to (0,0) (lines 145-153). -/
def calculateSmartLayout (components : List SolarComponent)
    (connections : List Connection) (fuel : Nat) : Option LayoutResult :=
  if components.all (fun c => c.x.isSome && c.y.isSome) then
    some { layoutedComponents := components
           totalHeight := max MIN_CANVAS_HEIGHT (maxYOf components + 200) }
  else
    match layoutPositions components connections fuel with
    | none => none
    | some cp =>
      some { layoutedComponents :=
               components.map (fun c =>
                 let pos := (aget? cp.2 c.id).getD (0, 0)
                 { c with x := some (snap pos.1), y := some (snap pos.2) })
             totalHeight := max MIN_CANVAS_HEIGHT (cp.1 + 100) }

/-- Edge rendering guard (lines 700-704): a connection is drawn only when
both endpoints are found among the placed components; otherwise nothing is
rendered for it. -/
def renderedEdge (placed : List SolarComponent) (conn : Connection) :
    Option (SolarComponent × SolarComponent) :=
  match placed.find? (fun c => c.id == conn.fromId),
      placed.find? (fun c => c.id == conn.toId) with
  | some f, some t => some (f, t)
  | _, _ => none

/-- Viewport state: scale plus translate offset (lines 189-190). -/
structure ViewState where
  scale : ℚ
  translate : ℚ × ℚ
deriving DecidableEq, Repr

/-- handleZoom (lines 209-211): clamp scale + delta into [0.1, 4]; the
translate offset is untouched. -/
def handleZoom (v : ViewState) (delta : ℚ) : ViewState :=
  { v with scale := min (max (1/10) (v.scale + delta)) 4 }

/-- Iterated zoom. -/
def zoomN (delta : ℚ) (n : Nat) (v : ViewState) : ViewState :=
  if n = 0 then v else zoomN delta (n - 1) (handleZoom v delta)
  termination_by n
  decreasing_by omega

/-- Initial view state (scale 1, no translation). -/
def initView : ViewState := { scale := 1, translate := (0, 0) }

/-- A component with no preset position, used in concrete scenarios. -/
def mkComp (i : String) (t : ComponentType) : SolarComponent :=
  { id := i, type := t, label := "c", specs := [] }

/-- The statement that the layout computation never completes on an input,
whatever recursion depth it is allowed. -/
def layoutDiverges (components : List SolarComponent)
    (connections : List Connection) : Prop :=
  ∀ fuel, calculateSmartLayout components connections fuel = none

/- Basic facts about the map model. -/

theorem aget?_aset_self {β : Type} (m : SMap β) (k : String) (v : β) :
    aget? (aset m k v) k = some v := by
  induction m with
  | nil => simp [aget?, aset]
  | cons p rest ih =>
    obtain ⟨k1, v1⟩ := p
    by_cases h : k1 = k
    · simp [aget?, aset, h]
    · simpa [aget?, aset, h, List.find?] using ih

theorem aget?_aset_ne {β : Type} (m : SMap β) (k k1 : String) (v : β)
    (h : k1 ≠ k) : aget? (aset m k v) k1 = aget? m k1 := by
  have hb : (k == k1) = false := beq_eq_false_iff_ne.2 (Ne.symm h)
  induction m with
  | nil => simp [aget?, aset, List.find?, hb]
  | cons p rest ih =>
    obtain ⟨k2, v2⟩ := p
    by_cases h2 : k2 = k
    · subst h2
      simp [aget?, aset, List.find?, hb, beq_iff_eq]
    · by_cases h3 : k2 = k1
      · subst h3
        simp [aget?, aset, List.find?, h2, beq_iff_eq]
      · have hb3 : (k2 == k1) = false := beq_eq_false_iff_ne.2 h3
        simpa [aget?, aset, List.find?, h2, hb3, beq_iff_eq] using ih

/- Concrete scenario inputs. -/

/-- C1 scenario: a single grid component already positioned at (40, 60). -/
def c1comps : List SolarComponent :=
  [{ mkComp "g" ComponentType.GRID with x := some 40, y := some 60 }]

/-- C2 scenario: a single unpositioned grid component. -/
def c2comps : List SolarComponent := [mkComp "g" ComponentType.GRID]

/-- C8 scenario: a single unpositioned PV array. -/
def c8comps : List SolarComponent := [mkComp "pv" ComponentType.PV_ARRAY]

/-- The component c8comps produces, placed at the snapped position. -/
def c8placed : SolarComponent :=
  { mkComp "pv" ComponentType.PV_ARRAY with x := some 100, y := some 160 }

/-- Layout result of the C8 scenario. -/
def c8res : LayoutResult :=
  { layoutedComponents := [c8placed], totalHeight := 1000 }

/- Claim theorems. -/

/-- C1: if every component already has both x and y defined, then for every
connection list the layout returns the component list unchanged (same ids,
types, labels, specs and the very same x and y values in the same order),
recomputing only the total height. -/
theorem c1_idempotent (components : List SolarComponent)
    (connections : List Connection) (fuel : Nat)
    (hall : components.all (fun c => c.x.isSome && c.y.isSome) = true) :
    calculateSmartLayout components connections fuel =
      some { layoutedComponents := components
             totalHeight := max MIN_CANVAS_HEIGHT (maxYOf components + 200) } := by
  simp [calculateSmartLayout, hall]

/-- C1 witness: the idempotence theorem applied to the concrete
already-positioned scenario. -/
theorem c1_witness :
    c1comps.all (fun c => c.x.isSome && c.y.isSome) = true ∧
    calculateSmartLayout c1comps [] 3 =
      some { layoutedComponents := c1comps
             totalHeight := max MIN_CANVAS_HEIGHT (maxYOf c1comps + 200) } :=
  ⟨by decide, c1_idempotent c1comps [] 3 (by decide)⟩

/-- C2: whenever the layout returns a result, its placed sequence carries
exactly the ids of the input in the same order (hence the same multiset of
ids, no drops, no duplicates) and every non-coordinate field (type, label,
specs) is unchanged. -/
theorem c2_coverage (components : List SolarComponent)
    (connections : List Connection) (fuel : Nat) (res : LayoutResult)
    (h : calculateSmartLayout components connections fuel = some res) :
    res.layoutedComponents.map (fun c => c.id) =
      components.map (fun c => c.id) ∧
    res.layoutedComponents.map (fun c => (c.id, c.type, c.label, c.specs)) =
      components.map (fun c => (c.id, c.type, c.label, c.specs)) := by
  unfold calculateSmartLayout at h
  split at h
  · cases h
    exact ⟨rfl, rfl⟩
  · cases hp : layoutPositions components connections fuel with
    | none => rw [hp] at h; cases h
    | some cp =>
      rw [hp] at h
      cases h
      refine ⟨?_, ?_⟩ <;> rw [List.map_map] <;> rfl

/-- C2 witness: coverage on the concrete single-grid scenario. -/
theorem c2_witness :
    calculateSmartLayout c2comps [] 6 =
      some { layoutedComponents :=
               [{ mkComp "g" ComponentType.GRID with
                    x := some 1000, y := some 160 }]
             totalHeight := 1000 } ∧
    ({ layoutedComponents :=
         [{ mkComp "g" ComponentType.GRID with x := some 1000, y := some 160 }]
       totalHeight := 1000 } : LayoutResult).layoutedComponents.map
        (fun c => (c.id, c.type, c.label, c.specs)) =
      c2comps.map (fun c => (c.id, c.type, c.label, c.specs)) := by
  have h : calculateSmartLayout c2comps [] 6 =
      some { layoutedComponents :=
               [{ mkComp "g" ComponentType.GRID with
                    x := some 1000, y := some 160 }]
             totalHeight := 1000 } := by
    simp [calculateSmartLayout, layoutPositions, layoutRoots, normalizeForest,
      initForest, addConn, calcRoots, calcHeightGo, assignRoots, assignGo,
      childTasks, stableSort, insertSorted, rootsLe, strLe, aget?, aset, ahas,
      c2comps, mkComp, getLevelX, getNodeHeight, levelMap, maxYOf, snap,
      jsRound, GRID_SNAP, MIN_CANVAS_HEIGHT, BASE_NODE_HEIGHT, LEVEL_WIDTH]
    norm_num
  exact ⟨h, (c2_coverage c2comps [] 6 _ h).2⟩

/-- C8: on the full-recompute path (some component lacks a coordinate),
every coordinate the layout produces -- in particular every computed,
non-manual one -- is an exact integer multiple of the grid size 20,
obtained as round(raw / gridSize) * gridSize. -/
theorem c8_snap_invariant (components : List SolarComponent)
    (connections : List Connection) (fuel : Nat) (res : LayoutResult)
    (c : SolarComponent)
    (hall : components.all (fun d => d.x.isSome && d.y.isSome) = false)
    (h : calculateSmartLayout components connections fuel = some res)
    (hc : c ∈ res.layoutedComponents) :
    ∃ kx ky : ℤ, c.x = some ((kx : ℚ) * GRID_SNAP) ∧
      c.y = some ((ky : ℚ) * GRID_SNAP) := by
  unfold calculateSmartLayout at h
  rw [hall] at h
  simp only [Bool.false_eq_true, if_false] at h
  cases hp : layoutPositions components connections fuel with
  | none => rw [hp] at h; cases h
  | some cp =>
    rw [hp] at h
    cases h
    obtain ⟨d, _, rfl⟩ := List.mem_map.1 hc
    exact ⟨jsRound (((aget? cp.2 d.id).getD (0, 0)).1 / GRID_SNAP),
           jsRound (((aget? cp.2 d.id).getD (0, 0)).2 / GRID_SNAP),
           rfl, rfl⟩

/-- C8 witness: the snap invariant applied to the concrete PV scenario,
whose placed coordinates 100 and 160 are indeed grid multiples. -/
theorem c8_witness :
    c8comps.all (fun d => d.x.isSome && d.y.isSome) = false ∧
    calculateSmartLayout c8comps [] 6 = some c8res ∧
    c8placed ∈ c8res.layoutedComponents ∧
    (∃ kx ky : ℤ, c8placed.x = some ((kx : ℚ) * GRID_SNAP) ∧
      c8placed.y = some ((ky : ℚ) * GRID_SNAP)) := by
  have h : calculateSmartLayout c8comps [] 6 = some c8res := by
    simp [calculateSmartLayout, layoutPositions, layoutRoots, normalizeForest,
      initForest, addConn, calcRoots, calcHeightGo, assignRoots, assignGo,
      childTasks, stableSort, insertSorted, rootsLe, strLe, aget?, aset, ahas,
      c8comps, c8res, c8placed, mkComp, getLevelX, getNodeHeight, levelMap,
      maxYOf, snap, jsRound, GRID_SNAP, MIN_CANVAS_HEIGHT, BASE_NODE_HEIGHT,
      LEVEL_WIDTH]
    norm_num
  exact ⟨by decide, h,
    by simp [c8res],
    c8_snap_invariant c8comps [] 6 c8res c8placed (by decide) h
      (by simp [c8res])⟩

/- C9: zoom clamping. -/

/-- C9: from any scale within [0.1, 4], one zoom step with any delta stays
within [0.1, 4] and leaves the translate offset unchanged; moreover from
scale 1.0 five steps of delta -0.1 yield exactly 0.5 (and never less along
the way) and forty steps of delta +0.1 yield exactly 4.0. -/
theorem c9_zoom (v : ViewState) (delta : ℚ)
    (h1 : 1/10 ≤ v.scale) (h2 : v.scale ≤ 4) :
    (1/10 ≤ (handleZoom v delta).scale ∧ (handleZoom v delta).scale ≤ 4 ∧
      (handleZoom v delta).translate = v.translate) ∧
    (zoomN (-(1/10)) 5 initView).scale = 1/2 ∧
    (∀ k, k ≤ 5 → 1/2 ≤ (zoomN (-(1/10)) k initView).scale) ∧
    (zoomN (1/10) 40 initView).scale = 4 := by
  refine ⟨⟨le_min (le_max_left _ _) (by norm_num), min_le_right _ _, rfl⟩,
    ?_, ?_, ?_⟩
  · simp [zoomN, handleZoom, initView, min_def, max_def]
    norm_num
  · intro k hk
    interval_cases k <;>
      (simp [zoomN, handleZoom, initView, min_def, max_def]; norm_num)
  · simp [zoomN, handleZoom, initView, min_def, max_def]
    norm_num

/-- C9 witness: the zoom theorem applied at the initial view and delta 1/2. -/
theorem c9_witness :
    (1/10 ≤ initView.scale ∧ initView.scale ≤ 4) ∧
    ((1/10 ≤ (handleZoom initView (1/2)).scale ∧
        (handleZoom initView (1/2)).scale ≤ 4 ∧
        (handleZoom initView (1/2)).translate = initView.translate) ∧
      (zoomN (-(1/10)) 5 initView).scale = 1/2 ∧
      (∀ k, k ≤ 5 → 1/2 ≤ (zoomN (-(1/10)) k initView).scale) ∧
      (zoomN (1/10) 40 initView).scale = 4) :=
  ⟨⟨by norm_num [initView], by norm_num [initView]⟩,
    c9_zoom initView (1/2) (by norm_num [initView]) (by norm_num [initView])⟩

/- C4: parent resolution. -/

/-- C4 scenario: one child connected to two would-be parents. -/
def c4comps : List SolarComponent :=
  [mkComp "p1" ComponentType.INVERTER, mkComp "p2" ComponentType.INVERTER,
   mkComp "ch" ComponentType.PV_ARRAY]

/-- First connection: child ch feeds parent p1. -/
def c4conn1 : Connection := { fromId := "ch", toId := "p1", label := "w", kind := "DC" }

/-- Second connection: child ch feeds parent p2. -/
def c4conn2 : Connection := { fromId := "ch", toId := "p2", label := "w", kind := "DC" }

/-- C4 counterexample: the claim says the later edge to the already-parented
child ch is ignored (parent stays p1, ch not added under p2); in fact after
both connections the recorded parent of ch is p2 and ch does sit in p2's
children list. -/
theorem c4_counterexample :
    aget? (normalizeForest c4comps [c4conn1, c4conn2]).parentMap "ch" =
      some "p2" ∧
    aget? (normalizeForest c4comps [c4conn1, c4conn2]).childrenMap "p2" =
      some ["ch"] ∧
    aget? (normalizeForest c4comps [c4conn1]).parentMap "ch" = some "p1" := by
  have ho1 : orientConn c4comps c4conn1 = ("p1", "ch") := by
    simp [orientConn, levelOfId, isLoad, c4comps, c4conn1, mkComp, levelMap]
  have ho2 : orientConn c4comps c4conn2 = ("p2", "ch") := by
    simp [orientConn, levelOfId, isLoad, c4comps, c4conn2, mkComp, levelMap]
  refine ⟨?_, ?_, ?_⟩ <;>
    · simp only [normalizeForest, initForest, List.foldl, addConn, ho1, ho2]
      simp [ahas, aget?, aset, c4comps, mkComp]

/-- C4 (amended): each node still has at most one recorded parent (the
parent map binds a key once), but resolution is last-writer-wins: whenever a
connection's oriented parent owns a children entry, processing it appends
the child to that parent's children list and overwrites the child's parent
binding, regardless of any earlier parent. -/
theorem c4_last_writer (components : List SolarComponent) (f : Forest)
    (conn : Connection)
    (hp : ahas f.childrenMap (orientConn components conn).1 = true) :
    aget? (addConn components f conn).parentMap
        (orientConn components conn).2 =
      some (orientConn components conn).1 ∧
    aget? (addConn components f conn).childrenMap
        (orientConn components conn).1 =
      some ((aget? f.childrenMap (orientConn components conn).1).getD []
        ++ [(orientConn components conn).2]) := by
  unfold addConn
  simp only [hp, if_true]
  exact ⟨aget?_aset_self _ _ _, aget?_aset_self _ _ _⟩

/-- C4 witness: the last-writer theorem applied to the forest that already
contains the first edge, processing the second edge. -/
theorem c4_witness :
    ahas (normalizeForest c4comps [c4conn1]).childrenMap
      (orientConn c4comps c4conn2).1 = true ∧
    aget? (addConn c4comps (normalizeForest c4comps [c4conn1])
        c4conn2).parentMap (orientConn c4comps c4conn2).2 =
      some (orientConn c4comps c4conn2).1 := by
  have ho1 : orientConn c4comps c4conn1 = ("p1", "ch") := by
    simp [orientConn, levelOfId, isLoad, c4comps, c4conn1, mkComp, levelMap]
  have ho2 : orientConn c4comps c4conn2 = ("p2", "ch") := by
    simp [orientConn, levelOfId, isLoad, c4comps, c4conn2, mkComp, levelMap]
  have hp : ahas (normalizeForest c4comps [c4conn1]).childrenMap
      (orientConn c4comps c4conn2).1 = true := by
    simp only [normalizeForest, initForest, List.foldl, addConn, ho1, ho2]
    simp [ahas, aget?, aset, c4comps, mkComp]
  exact ⟨hp,
    (c4_last_writer c4comps (normalizeForest c4comps [c4conn1]) c4conn2 hp).1⟩

/- C5: direction disambiguation. -/

/-- C5 scenario: an inverter and a load. -/
def c5comps : List SolarComponent :=
  [mkComp "inv" ComponentType.INVERTER, mkComp "ld" ComponentType.LOAD]

/-- The connection runs from the inverter to the load. -/
def c5conn : Connection := { fromId := "inv", toId := "ld", label := "w", kind := "AC" }

/-- C5 counterexample: the claim says a LOAD endpoint is never the parent;
but for the connection inv -> ld the load (rank 3.5, above the inverter's 2)
is kept as the parent: the tree records ld as parent of inv. -/
theorem c5_counterexample :
    orientConn c5comps c5conn = ("ld", "inv") ∧
    aget? (normalizeForest c5comps [c5conn]).parentMap "inv" = some "ld" ∧
    aget? (normalizeForest c5comps [c5conn]).childrenMap "ld" =
      some ["inv"] := by
  have ho : orientConn c5comps c5conn = ("ld", "inv") := by
    simp [orientConn, levelOfId, isLoad, c5comps, c5conn, mkComp, levelMap]
    try norm_num
  refine ⟨ho, ?_, ?_⟩ <;>
    · simp only [normalizeForest, initForest, List.foldl, addConn, ho]
      simp [ahas, aget?, aset, c5comps, mkComp]

/-- C5 (amended): when both endpoints exist, the parent defaults to the to
endpoint; the pair is swapped exactly when the to endpoint's rank is
strictly below the from endpoint's rank and the from endpoint is not a
LOAD. So the higher-rank endpoint becomes the parent whenever the ranks
differ, except that a lower-rank LOAD in the from position is never
promoted: it stays the child; a LOAD in the to position whose rank is not
below the from rank does become the parent. -/
theorem c5_orientation (components : List SolarComponent) (conn : Connection)
    (cf ct : SolarComponent)
    (hf : components.find? (fun c => c.id == conn.fromId) = some cf)
    (ht : components.find? (fun c => c.id == conn.toId) = some ct) :
    orientConn components conn =
      if levelMap ct.type < levelMap cf.type ∧ cf.type ≠ ComponentType.LOAD
      then (conn.fromId, conn.toId) else (conn.toId, conn.fromId) := by
  simp only [orientConn, levelOfId, isLoad, hf, ht]
  by_cases hlt : levelMap ct.type < levelMap cf.type
  · by_cases hload : cf.type = ComponentType.LOAD
    · simp [hlt, hload]
    · simp [hlt, hload, beq_eq_false_iff_ne.2 hload]
  · simp [hlt]

/-- C5 witness: the orientation characterisation applied to the concrete
inverter-load connection. -/
theorem c5_witness :
    c5comps.find? (fun c => c.id == c5conn.fromId) =
      some (mkComp "inv" ComponentType.INVERTER) ∧
    c5comps.find? (fun c => c.id == c5conn.toId) =
      some (mkComp "ld" ComponentType.LOAD) ∧
    orientConn c5comps c5conn =
      (if levelMap ComponentType.LOAD < levelMap ComponentType.INVERTER ∧
          ComponentType.INVERTER ≠ ComponentType.LOAD
       then (c5conn.fromId, c5conn.toId) else (c5conn.toId, c5conn.fromId)) :=
  ⟨by decide, by decide,
    c5_orientation c5comps c5conn (mkComp "inv" ComponentType.INVERTER)
      (mkComp "ld" ComponentType.LOAD) (by decide) (by decide)⟩

/- C6: the height recursion on a cycle. -/

/-- On a two-cycle of the children map whose two nodes are not yet
memoized, the height recursion never completes, whatever fuel it gets:
the memo entry of a node is only written after its children finish, so
there is no in-progress guard to stop the descent. -/
theorem cycle_go_none (components : List SolarComponent)
    (cm : SMap (List String)) (u v : String)
    (hu : aget? cm u = some [v]) (hv : aget? cm v = some [u]) :
    ∀ fuel memo, aget? memo u = none → aget? memo v = none →
      calcHeightGo components cm fuel memo [u] = none ∧
      calcHeightGo components cm fuel memo [v] = none := by
  intro fuel
  induction fuel with
  | zero =>
    intro memo hmu hmv
    constructor <;> (rw [calcHeightGo.eq_def]; simp)
  | succ n ih =>
    intro memo hmu hmv
    have hcond : ¬ (n + 1 = 0) := by omega
    have h2 : calcHeightGo components cm n memo [v] = none :=
      (ih memo hmu hmv).2
    have h1 : calcHeightGo components cm n memo [u] = none :=
      (ih memo hmu hmv).1
    constructor
    · rw [calcHeightGo.eq_def]
      simp only [hcond, if_false, hmu, hu, Nat.add_sub_cancel,
        Option.getD_some, List.isEmpty_cons, Bool.false_eq_true, h2]
    · rw [calcHeightGo.eq_def]
      simp only [hcond, if_false, hmv, hv, Nat.add_sub_cancel,
        Option.getD_some, List.isEmpty_cons, Bool.false_eq_true, h1]

/-- C6 (amended): the height computation has no in-progress re-visit guard
and is not total: whenever the children map links two unmemoized nodes in a
cycle, the recursive height calculation started at either node fails to
complete for every recursion depth. (Memoization does return cached values
for nodes whose computation already finished, but a node on the current
descent path is not in the memo yet.) -/
theorem c6_cycle_diverges (components : List SolarComponent)
    (cm : SMap (List String)) (fuel : Nat) (memo : SMap ℚ) (u v : String)
    (hu : aget? cm u = some [v]) (hv : aget? cm v = some [u])
    (hmu : aget? memo u = none) (hmv : aget? memo v = none) :
    calcHeightGo components cm fuel memo [u] = none :=
  (cycle_go_none components cm u v hu hv fuel memo hmu hmv).1

/-- C6 scenario: a root r above a two-cycle between a and b. -/
def c6comps : List SolarComponent :=
  [mkComp "r" ComponentType.GRID, mkComp "a" ComponentType.INVERTER,
   mkComp "b" ComponentType.INVERTER]

/-- r is parent of a. -/
def c6conn1 : Connection := { fromId := "a", toId := "r", label := "w", kind := "AC" }

/-- a is parent of b. -/
def c6conn2 : Connection := { fromId := "b", toId := "a", label := "w", kind := "AC" }

/-- b is parent of a, closing the cycle. -/
def c6conn3 : Connection := { fromId := "a", toId := "b", label := "w", kind := "AC" }

/-- The C6 connection list. -/
def c6conns : List Connection := [c6conn1, c6conn2, c6conn3]

/-- The normalized forest of the C6 scenario, with the a-b cycle reachable
from the root r. -/
theorem c6_forest :
    normalizeForest c6comps c6conns =
      { childrenMap := [("r", ["a"]), ("a", ["b"]), ("b", ["a"])]
        parentMap := [("a", "b"), ("b", "a")] } := by
  have ho1 : orientConn c6comps c6conn1 = ("r", "a") := by
    simp [orientConn, levelOfId, isLoad, c6comps, c6conn1, mkComp, levelMap]
    try norm_num
  have ho2 : orientConn c6comps c6conn2 = ("a", "b") := by
    simp [orientConn, levelOfId, isLoad, c6comps, c6conn2, mkComp, levelMap]
    try norm_num
  have ho3 : orientConn c6comps c6conn3 = ("b", "a") := by
    simp [orientConn, levelOfId, isLoad, c6comps, c6conn3, mkComp, levelMap]
    try norm_num
  simp only [c6conns, normalizeForest, initForest, List.foldl, addConn,
    ho1, ho2, ho3]
  simp [ahas, aget?, aset, c6comps, mkComp]

/-- C6 counterexample: the claim says the height computation terminates on
every input, a re-visited in-progress node counting as height 0; in fact on
the concrete scenario with the cycle a-b reachable from the root r the whole
layout never returns, whatever the recursion depth. -/
theorem c6_counterexample : layoutDiverges c6comps c6conns := by
  intro fuel
  have hall : c6comps.all (fun c => c.x.isSome && c.y.isSome) = false := by
    decide
  have hcm : (normalizeForest c6comps c6conns).childrenMap =
      [("r", ["a"]), ("a", ["b"]), ("b", ["a"])] := by rw [c6_forest]
  have hcma : aget? ((normalizeForest c6comps c6conns).childrenMap) "a" =
      some ["b"] := by rw [hcm]; simp [aget?]
  have hcmb : aget? ((normalizeForest c6comps c6conns).childrenMap) "b" =
      some ["a"] := by rw [hcm]; simp [aget?]
  have hcmr : aget? ((normalizeForest c6comps c6conns).childrenMap) "r" =
      some ["a"] := by rw [hcm]; simp [aget?]
  have hroots : layoutRoots c6comps (normalizeForest c6comps c6conns) =
      [mkComp "r" ComponentType.GRID] := by
    rw [c6_forest]
    simp [layoutRoots, stableSort, insertSorted, rootsLe, ahas, aget?,
      c6comps, mkComp]
  have hr : calcHeightGo c6comps
      ((normalizeForest c6comps c6conns).childrenMap) fuel [] ["r"] = none := by
    cases fuel with
    | zero => rw [calcHeightGo.eq_def]; simp
    | succ n =>
      have hcond : ¬ (n + 1 = 0) := by omega
      have hmr : aget? ([] : SMap ℚ) "r" = none := rfl
      have hinner : calcHeightGo c6comps
          ((normalizeForest c6comps c6conns).childrenMap) n [] ["a"] = none :=
        (cycle_go_none c6comps _ "a" "b" hcma hcmb n [] rfl rfl).1
      rw [calcHeightGo.eq_def]
      simp only [hcond, if_false, hmr, hcmr, Nat.add_sub_cancel,
        Option.getD_some, List.isEmpty_cons, Bool.false_eq_true, hinner]
  simp only [calculateSmartLayout, hall, Bool.false_eq_true, if_false,
    layoutPositions, hroots, calcRoots, mkComp]
  rw [hr]

/-- C6 witness: the divergence theorem applied to a concrete two-cycle
children map with empty memo and depth 7. -/
theorem c6_witness :
    aget? ([("a", ["b"]), ("b", ["a"])] : SMap (List String)) "a" =
      some ["b"] ∧
    aget? ([("a", ["b"]), ("b", ["a"])] : SMap (List String)) "b" =
      some ["a"] ∧
    calcHeightGo c6comps [("a", ["b"]), ("b", ["a"])] 7 [] ["a"] = none :=
  ⟨by decide, by decide,
    c6_cycle_diverges c6comps [("a", ["b"]), ("b", ["a"])] 7 [] "a" "b"
      (by decide) (by decide) rfl rfl⟩

/- C7: dangling references. -/

/-- C7 scenario: an inverter a fed by a PV array b. -/
def c7comps : List SolarComponent :=
  [mkComp "a" ComponentType.INVERTER, mkComp "b" ComponentType.PV_ARRAY]

/-- The real connection b -> a. -/
def c7connReal : Connection := { fromId := "b", toId := "a", label := "w", kind := "DC" }

/-- A connection whose from endpoint ghost does not exist. -/
def c7connGhost : Connection := { fromId := "ghost", toId := "a", label := "w", kind := "DC" }

/-- A connection both of whose endpoints are missing. -/
def c7ghost2 : Connection := { fromId := "ghost", toId := "ghost2", label := "w", kind := "DC" }

/-- Layout of the C7 scenario with the ghost edge present. -/
def c7res1 : LayoutResult :=
  { layoutedComponents :=
      [{ mkComp "a" ComponentType.INVERTER with x := some 460, y := some 200 },
       { mkComp "b" ComponentType.PV_ARRAY with x := some 100, y := some 160 }]
    totalHeight := 1000 }

/-- Layout of the C7 scenario without the ghost edge. -/
def c7res2 : LayoutResult :=
  { layoutedComponents :=
      [{ mkComp "a" ComponentType.INVERTER with x := some 460, y := some 160 },
       { mkComp "b" ComponentType.PV_ARRAY with x := some 100, y := some 160 }]
    totalHeight := 1000 }

/-- C7 counterexample: the claim says a connection with a missing endpoint
contributes nothing to any component's computed position; but the ghost
edge enters a's children list as a phantom leaf and moves a's computed y
from 160 to 200. -/
theorem c7_counterexample :
    calculateSmartLayout c7comps [c7connReal, c7connGhost] 6 = some c7res1 ∧
    calculateSmartLayout c7comps [c7connReal] 6 = some c7res2 ∧
    c7res1.layoutedComponents.map (fun c => c.y) ≠
      c7res2.layoutedComponents.map (fun c => c.y) := by
  have ho1 : orientConn c7comps c7connReal = ("a", "b") := by
    simp [orientConn, levelOfId, isLoad, c7comps, c7connReal, mkComp, levelMap]
    try norm_num
  have ho2 : orientConn c7comps c7connGhost = ("a", "ghost") := by
    simp [orientConn, levelOfId, isLoad, c7comps, c7connGhost, mkComp,
      levelMap]
    try norm_num
  have hall : c7comps.all (fun c => c.x.isSome && c.y.isSome) = false := by
    decide
  refine ⟨?_, ?_, ?_⟩
  · have hforest : normalizeForest c7comps [c7connReal, c7connGhost] =
        { childrenMap := [("a", ["b", "ghost"]), ("b", [])]
          parentMap := [("b", "a"), ("ghost", "a")] } := by
      simp only [normalizeForest, initForest, List.foldl, addConn, ho1, ho2]
      simp [ahas, aget?, aset, c7comps, mkComp]
    have hroots : layoutRoots c7comps
        (normalizeForest c7comps [c7connReal, c7connGhost]) =
        [mkComp "a" ComponentType.INVERTER] := by
      rw [hforest]
      simp [layoutRoots, stableSort, insertSorted, rootsLe, ahas, aget?,
        c7comps, mkComp]
    simp only [calculateSmartLayout, hall, Bool.false_eq_true, if_false,
      layoutPositions, hroots, hforest]
    simp [calcRoots, calcHeightGo, assignRoots, assignGo, childTasks,
      stableSort, insertSorted, strLe, aget?, aset, c7comps, c7res1, mkComp,
      getLevelX, getNodeHeight, levelMap, snap, jsRound, GRID_SNAP,
      MIN_CANVAS_HEIGHT, BASE_NODE_HEIGHT, LEVEL_WIDTH]
    norm_num
  · have hforest : normalizeForest c7comps [c7connReal] =
        { childrenMap := [("a", ["b"]), ("b", [])]
          parentMap := [("b", "a")] } := by
      simp only [normalizeForest, initForest, List.foldl, addConn, ho1]
      simp [ahas, aget?, aset, c7comps, mkComp]
    have hroots : layoutRoots c7comps (normalizeForest c7comps [c7connReal]) =
        [mkComp "a" ComponentType.INVERTER] := by
      rw [hforest]
      simp [layoutRoots, stableSort, insertSorted, rootsLe, ahas, aget?,
        c7comps, mkComp]
    simp only [calculateSmartLayout, hall, Bool.false_eq_true, if_false,
      layoutPositions, hroots, hforest]
    simp [calcRoots, calcHeightGo, assignRoots, assignGo, childTasks,
      stableSort, insertSorted, strLe, aget?, aset, c7comps, c7res2, mkComp,
      getLevelX, getNodeHeight, levelMap, snap, jsRound, GRID_SNAP,
      MIN_CANVAS_HEIGHT, BASE_NODE_HEIGHT, LEVEL_WIDTH]
    norm_num
  · simp [c7res1, c7res2, mkComp]
    try norm_num

/-- C7 (amended): a connection whose oriented parent endpoint has no
children entry is skipped entirely -- it leaves the forest untouched and so
contributes nothing to any position; and no edge is rendered for any
connection whose from endpoint is not among the placed components. (A
missing child endpoint under an existing parent does, however, enter the
forest as a phantom leaf and can shift computed positions, as the
counterexample shows.) -/
theorem c7_dangling (components : List SolarComponent) (f : Forest)
    (conn : Connection) (placed : List SolarComponent)
    (hp : ahas f.childrenMap (orientConn components conn).1 = false)
    (hfrom : placed.find? (fun c => c.id == conn.fromId) = none) :
    addConn components f conn = f ∧ renderedEdge placed conn = none := by
  constructor
  · unfold addConn
    simp only [hp, Bool.false_eq_true, if_false]
  · unfold renderedEdge
    rw [hfrom]

/-- C7 witness: the dangling-edge theorem applied to a connection both of
whose endpoints are absent from the component list. -/
theorem c7_witness :
    ahas (initForest c7comps).childrenMap (orientConn c7comps c7ghost2).1 =
      false ∧
    c7comps.find? (fun c => c.id == c7ghost2.fromId) = none ∧
    (addConn c7comps (initForest c7comps) c7ghost2 = initForest c7comps ∧
      renderedEdge c7comps c7ghost2 = none) := by
  have ho : orientConn c7comps c7ghost2 = ("ghost2", "ghost") := by
    simp [orientConn, levelOfId, isLoad, c7comps, c7ghost2, mkComp, levelMap]
  have hp : ahas (initForest c7comps).childrenMap
      (orientConn c7comps c7ghost2).1 = false := by
    rw [ho]
    simp [initForest, ahas, aget?, aset, c7comps, mkComp]
  have hfrom : c7comps.find? (fun c => c.id == c7ghost2.fromId) = none := by
    simp [c7comps, c7ghost2, mkComp]
  exact ⟨hp, hfrom,
    c7_dangling c7comps (initForest c7comps) c7ghost2 c7comps hp hfrom⟩

/- C10: unreached components fall back to the origin. -/

/-- Snapping the origin gives the origin. -/
theorem snap_zero : snap 0 = 0 := by
  norm_num [snap, jsRound, GRID_SNAP]

/-- C10: on the full-recompute path, a component that the position
assignment never reaches still appears in the layout output, placed at the
snapped fallback (0,0). -/
theorem c10_fallback_origin (components : List SolarComponent)
    (connections : List Connection) (fuel : Nat) (cy : ℚ)
    (positions : SMap (ℚ × ℚ)) (res : LayoutResult) (c : SolarComponent)
    (hall : components.all (fun d => d.x.isSome && d.y.isSome) = false)
    (hpos : layoutPositions components connections fuel = some (cy, positions))
    (hlay : calculateSmartLayout components connections fuel = some res)
    (hc : c ∈ components)
    (hmiss : aget? positions c.id = none) :
    { c with x := some 0, y := some 0 } ∈ res.layoutedComponents := by
  unfold calculateSmartLayout at hlay
  rw [hall] at hlay
  simp only [Bool.false_eq_true, if_false] at hlay
  rw [hpos] at hlay
  cases hlay
  refine List.mem_map.2 ⟨c, hc, ?_⟩
  simp only [hmiss]
  simp [snap_zero]

/-- C10 scenario: two inverters in a pure connection cycle. -/
def c10comps : List SolarComponent :=
  [mkComp "a" ComponentType.INVERTER, mkComp "b" ComponentType.INVERTER]

/-- a feeds b. -/
def c10conn1 : Connection := { fromId := "a", toId := "b", label := "w", kind := "AC" }

/-- b feeds a. -/
def c10conn2 : Connection := { fromId := "b", toId := "a", label := "w", kind := "AC" }

/-- The C10 connection list: a two-cycle, so both components have parents
and the root set is empty. -/
def c10conns : List Connection := [c10conn1, c10conn2]

/-- C10 witness: in the cycle scenario nobody is a root, the assignment
reaches nothing, and both components appear at the origin. -/
theorem c10_witness :
    c10comps.all (fun d => d.x.isSome && d.y.isSome) = false ∧
    layoutPositions c10comps c10conns 6 = some (100, []) ∧
    calculateSmartLayout c10comps c10conns 6 =
      some { layoutedComponents :=
               [{ mkComp "a" ComponentType.INVERTER with
                    x := some 0, y := some 0 },
                { mkComp "b" ComponentType.INVERTER with
                    x := some 0, y := some 0 }]
             totalHeight := 1000 } ∧
    aget? ([] : SMap (ℚ × ℚ)) "a" = none ∧
    { mkComp "a" ComponentType.INVERTER with x := some 0, y := some 0 } ∈
      ({ layoutedComponents :=
           [{ mkComp "a" ComponentType.INVERTER with x := some 0, y := some 0 },
            { mkComp "b" ComponentType.INVERTER with x := some 0, y := some 0 }]
         totalHeight := 1000 } : LayoutResult).layoutedComponents := by
  have ho1 : orientConn c10comps c10conn1 = ("b", "a") := by
    simp [orientConn, levelOfId, isLoad, c10comps, c10conn1, mkComp, levelMap]
  have ho2 : orientConn c10comps c10conn2 = ("a", "b") := by
    simp [orientConn, levelOfId, isLoad, c10comps, c10conn2, mkComp, levelMap]
  have hforest : normalizeForest c10comps c10conns =
      { childrenMap := [("a", ["b"]), ("b", ["a"])]
        parentMap := [("a", "b"), ("b", "a")] } := by
    simp only [c10conns, normalizeForest, initForest, List.foldl, addConn,
      ho1, ho2]
    simp [ahas, aget?, aset, c10comps, mkComp]
  have hroots : layoutRoots c10comps (normalizeForest c10comps c10conns) =
      [] := by
    rw [hforest]
    simp [layoutRoots, stableSort, insertSorted, rootsLe, ahas, aget?,
      c10comps, mkComp]
  have hall : c10comps.all (fun d => d.x.isSome && d.y.isSome) = false := by
    decide
  have hpos : layoutPositions c10comps c10conns 6 = some (100, []) := by
    simp only [layoutPositions, hroots, calcRoots, assignRoots]
  have hlay : calculateSmartLayout c10comps c10conns 6 =
      some { layoutedComponents :=
               [{ mkComp "a" ComponentType.INVERTER with
                    x := some 0, y := some 0 },
                { mkComp "b" ComponentType.INVERTER with
                    x := some 0, y := some 0 }]
             totalHeight := 1000 } := by
    simp only [calculateSmartLayout, hall, Bool.false_eq_true, if_false,
      hpos]
    simp [c10comps, mkComp, aget?, snap_zero, MIN_CANVAS_HEIGHT]
    norm_num
  refine ⟨hall, hpos, hlay, rfl, ?_⟩
  exact c10_fallback_origin c10comps c10conns 6 100 [] _
    (mkComp "a" ComponentType.INVERTER) hall hpos hlay
    (by simp [c10comps]) rfl

/- C3: manual positions under the full recompute. -/

/-- Invariant: any position recorded for a component that carries both
manual coordinates is exactly that manual pair. (The assignment writes
node.x.getD _ and node.y.getD _, so fully pinned nodes keep their pair no
matter which band center they are visited with.) -/
def PinnedInv (components : List SolarComponent)
    (positions : SMap (ℚ × ℚ)) : Prop :=
  ∀ (id : String) (n : SolarComponent) (a b : ℚ),
    components.find? (fun c => c.id == id) = some n →
    n.x = some a → n.y = some b →
    aget? positions id = none ∨ aget? positions id = some (a, b)

/-- The empty position map satisfies the invariant. -/
theorem pinnedInv_nil (components : List SolarComponent) :
    PinnedInv components [] := by
  intro id n a b _ _ _
  left
  rfl

/-- Writing the position of a node as its coordinate defaults preserves the
invariant. -/
theorem pinnedInv_aset (components : List SolarComponent)
    (positions : SMap (ℚ × ℚ)) (nodeId : String) (node : SolarComponent)
    (X Y : ℚ)
    (hfind : components.find? (fun c => c.id == nodeId) = some node)
    (hInv : PinnedInv components positions) :
    PinnedInv components
      (aset positions nodeId (node.x.getD X, node.y.getD Y)) := by
  intro id n a b hf hx hy
  by_cases hid : id = nodeId
  · subst hid
    rw [hfind] at hf
    cases hf
    right
    rw [aget?_aset_self]
    simp [hx, hy]
  · rw [aget?_aset_ne _ _ _ _ hid]
    exact hInv id n a b hf hx hy

/-- The recursive position assignment preserves the invariant. -/
theorem assignGo_pinned (components : List SolarComponent)
    (cm : SMap (List String)) (heights : SMap ℚ) :
    ∀ (fuel : Nat) (tasks : List (String × ℚ)) (positions r : SMap (ℚ × ℚ)),
      PinnedInv components positions →
      assignGo components cm heights fuel positions tasks = some r →
      PinnedInv components r := by
  intro fuel
  induction fuel with
  | zero =>
    intro tasks positions r _ hr
    rw [assignGo.eq_def] at hr
    simp at hr
  | succ fuelN ih =>
    intro tasks positions r hInv hr
    rw [assignGo.eq_def] at hr
    have hcond : ¬ (fuelN + 1 = 0) := by omega
    rw [if_neg hcond] at hr
    cases tasks with
    | nil =>
      cases hr
      exact hInv
    | cons t rest =>
      obtain ⟨nodeId, centerY⟩ := t
      simp only [Nat.add_sub_cancel] at hr
      cases hfind : components.find? (fun c => c.id == nodeId) with
      | none =>
        rw [hfind] at hr
        exact ih rest positions r hInv hr
      | some node =>
        rw [hfind] at hr
        simp only at hr
        have hInv1 : PinnedInv components
            (aset positions nodeId
              (node.x.getD (getLevelX node.type), node.y.getD centerY)) :=
          pinnedInv_aset components positions nodeId node _ _ hfind hInv
        by_cases hemp : ((aget? cm nodeId).getD []).isEmpty = true
        · rw [if_pos hemp] at hr
          exact ih rest _ r hInv1 hr
        · rw [if_neg hemp] at hr
          cases hmid : assignGo components cm heights fuelN
              (aset positions nodeId
                (node.x.getD (getLevelX node.type), node.y.getD centerY))
              (childTasks heights
                (stableSort strLe ((aget? cm nodeId).getD []))
                (centerY - (aget? heights nodeId).getD 0 / 2)) with
          | none => rw [hmid] at hr; cases hr
          | some positions2 =>
            rw [hmid] at hr
            have hInv2 : PinnedInv components positions2 :=
              ih _ _ _ hInv1 hmid
            exact ih rest positions2 r hInv2 hr

/-- Stacking the roots preserves the invariant. -/
theorem assignRoots_pinned (components : List SolarComponent)
    (cm : SMap (List String)) (heights : SMap ℚ) (fuel : Nat) :
    ∀ (roots : List SolarComponent) (currentRootY : ℚ)
      (positions : SMap (ℚ × ℚ)) (out : ℚ × SMap (ℚ × ℚ)),
      PinnedInv components positions →
      assignRoots components cm heights fuel roots currentRootY positions =
        some out →
      PinnedInv components out.2 := by
  intro roots
  induction roots with
  | nil =>
    intro currentRootY positions out hInv hr
    simp only [assignRoots] at hr
    cases hr
    exact hInv
  | cons root rest ih =>
    intro currentRootY positions out hInv hr
    simp only [assignRoots] at hr
    cases hmid : assignGo components cm heights fuel positions
        [(root.id, currentRootY + (aget? heights root.id).getD 0 / 2)] with
    | none => rw [hmid] at hr; cases hr
    | some positions1 =>
      rw [hmid] at hr
      have hInv1 : PinnedInv components positions1 :=
        assignGo_pinned components cm heights fuel _ _ _ hInv hmid
      exact ih _ positions1 out hInv1 hr

/-- C3 (amended): during a full recompute, a component carrying both manual
coordinates that the assignment pass reaches keeps its manual pair in the
positions map, and the layout output for it is that pair rounded to the
nearest multiple of the 20-unit grid (so kept exactly if and only if the
manual coordinates are already grid multiples); a pinned component the pass
never reaches instead falls back to the origin. -/
theorem c3_manual_snapped (components : List SolarComponent)
    (connections : List Connection) (fuel : Nat) (cy : ℚ)
    (positions : SMap (ℚ × ℚ)) (res : LayoutResult) (c : SolarComponent)
    (mx my : ℚ)
    (hall : components.all (fun d => d.x.isSome && d.y.isSome) = false)
    (hpos : layoutPositions components connections fuel = some (cy, positions))
    (hlay : calculateSmartLayout components connections fuel = some res)
    (hfind : components.find? (fun d => d.id == c.id) = some c)
    (hx : c.x = some mx) (hy : c.y = some my)
    (hreach : (aget? positions c.id).isSome = true) :
    aget? positions c.id = some (mx, my) ∧
    ∀ d ∈ res.layoutedComponents, d.id = c.id →
      d.x = some (snap mx) ∧ d.y = some (snap my) := by
  have hInv : PinnedInv components positions := by
    simp only [layoutPositions] at hpos
    cases hh : calcRoots components
        (normalizeForest components connections).childrenMap fuel
        (layoutRoots components (normalizeForest components connections))
        [] with
    | none => rw [hh] at hpos; cases hpos
    | some heights =>
      rw [hh] at hpos
      exact assignRoots_pinned components _ heights fuel _ 100 [] _
        (pinnedInv_nil components) hpos
  have hval : aget? positions c.id = some (mx, my) := by
    rcases hInv c.id c mx my hfind hx hy with hnone | hsome
    · rw [hnone] at hreach; cases hreach
    · exact hsome
  refine ⟨hval, ?_⟩
  unfold calculateSmartLayout at hlay
  rw [hall] at hlay
  simp only [Bool.false_eq_true, if_false] at hlay
  rw [hpos] at hlay
  cases hlay
  intro d hd hdid
  obtain ⟨e, _, rfl⟩ := List.mem_map.1 hd
  have hid : e.id = c.id := hdid
  have hvale : aget? positions e.id = some (mx, my) := by
    rw [hid]; exact hval
  constructor <;> simp [hvale]

/-- C3 scenario: a is manually pinned at the off-grid point (123, 147); b
has no coordinates, forcing the full recompute path. -/
def c3comps : List SolarComponent :=
  [{ mkComp "a" ComponentType.INVERTER with x := some 123, y := some 147 },
   mkComp "b" ComponentType.PV_ARRAY]

/-- C3 counterexample: the claim says a component with both coordinates
keeps exactly those values; but the full recompute snaps them, moving a
from its manual (123, 147) to (120, 140). -/
theorem c3_counterexample :
    calculateSmartLayout c3comps [] 6 =
      some { layoutedComponents :=
               [{ mkComp "a" ComponentType.INVERTER with
                    x := some 120, y := some 140 },
                { mkComp "b" ComponentType.PV_ARRAY with
                    x := some 100, y := some 300 }]
             totalHeight := 1000 } ∧
    ((120 : ℚ), (140 : ℚ)) ≠ ((123 : ℚ), (147 : ℚ)) := by
  constructor
  · have hall : c3comps.all (fun c => c.x.isSome && c.y.isSome) = false := by
      decide
    have hforest : normalizeForest c3comps [] = initForest c3comps := rfl
    have hroots : layoutRoots c3comps (normalizeForest c3comps []) =
        [{ mkComp "a" ComponentType.INVERTER with
             x := some 123, y := some 147 },
         mkComp "b" ComponentType.PV_ARRAY] := by
      rw [hforest]
      simp [layoutRoots, stableSort, insertSorted, rootsLe, ahas, aget?,
        initForest, aset, c3comps, mkComp, levelMap]
    simp only [calculateSmartLayout, hall, Bool.false_eq_true, if_false,
      layoutPositions, hroots, hforest]
    simp [calcRoots, calcHeightGo, assignRoots, assignGo, childTasks,
      stableSort, insertSorted, strLe, aget?, aset, ahas, initForest,
      c3comps, mkComp, getLevelX, getNodeHeight, levelMap, snap, jsRound,
      GRID_SNAP, MIN_CANVAS_HEIGHT, BASE_NODE_HEIGHT, LEVEL_WIDTH]
    norm_num
  · norm_num

/-- C3 witness: the amended theorem applied to the pinned component a of
the concrete scenario. -/
theorem c3_witness :
    c3comps.all (fun d => d.x.isSome && d.y.isSome) = false ∧
    layoutPositions c3comps [] 6 =
      some (380, [("a", (123, 147)), ("b", (100, 290))]) ∧
    aget? ([("a", ((123 : ℚ), (147 : ℚ))), ("b", (100, 290))]) "a" =
      some (123, 147) ∧
    ∀ d ∈ ([{ mkComp "a" ComponentType.INVERTER with
                x := some 120, y := some 140 },
              { mkComp "b" ComponentType.PV_ARRAY with
                x := some 100, y := some 300 }] : List SolarComponent),
      d.id = "a" → d.x = some (snap 123) ∧ d.y = some (snap 147) := by
  have hall : c3comps.all (fun d => d.x.isSome && d.y.isSome) = false := by
    decide
  have hforest : normalizeForest c3comps [] = initForest c3comps := rfl
  have hroots : layoutRoots c3comps (normalizeForest c3comps []) =
      [{ mkComp "a" ComponentType.INVERTER with
           x := some 123, y := some 147 },
       mkComp "b" ComponentType.PV_ARRAY] := by
    rw [hforest]
    simp [layoutRoots, stableSort, insertSorted, rootsLe, ahas, aget?,
      initForest, aset, c3comps, mkComp, levelMap]
  have hpos : layoutPositions c3comps [] 6 =
      some (380, [("a", (123, 147)), ("b", (100, 290))]) := by
    simp only [layoutPositions, hroots, hforest]
    simp [calcRoots, calcHeightGo, assignRoots, assignGo, childTasks,
      stableSort, insertSorted, strLe, aget?, aset, ahas, initForest,
      c3comps, mkComp, getLevelX, getNodeHeight, levelMap, BASE_NODE_HEIGHT,
      LEVEL_WIDTH]
    norm_num
  have hlay : calculateSmartLayout c3comps [] 6 =
      some { layoutedComponents :=
               [{ mkComp "a" ComponentType.INVERTER with
                    x := some 120, y := some 140 },
                { mkComp "b" ComponentType.PV_ARRAY with
                    x := some 100, y := some 300 }]
             totalHeight := 1000 } := by
    simp only [calculateSmartLayout, hall, Bool.false_eq_true, if_false,
      hpos]
    simp [aget?, c3comps, mkComp, snap, jsRound, GRID_SNAP,
      MIN_CANVAS_HEIGHT]
    norm_num
  have hfind : c3comps.find? (fun d => d.id ==
      ({ mkComp "a" ComponentType.INVERTER with
           x := some 123, y := some 147 } : SolarComponent).id) =
      some { mkComp "a" ComponentType.INVERTER with
               x := some 123, y := some 147 } := by
    simp [c3comps, mkComp]
  have hmain := c3_manual_snapped c3comps [] 6 380
    [("a", (123, 147)), ("b", (100, 290))]
    { layoutedComponents :=
        [{ mkComp "a" ComponentType.INVERTER with
             x := some 120, y := some 140 },
         { mkComp "b" ComponentType.PV_ARRAY with
             x := some 100, y := some 300 }]
      totalHeight := 1000 }
    { mkComp "a" ComponentType.INVERTER with x := some 123, y := some 147 }
    123 147 hall hpos hlay hfind rfl rfl (by simp [aget?, mkComp])
  exact ⟨hall, hpos, hmain.1, hmain.2⟩

end Solar
